import Mathlib

/-!
# Verification of the byte-reader crate

A shallow embedding of the `byte-reader` crate (files `src/lib.rs`,
`src/cursor.rs`) into Lean 4, together with theorems settling the stated
properties of its location resolver and cursor.

Bytes are modelled as `Nat` (every byte produced by the code is `< 256`;
where a Rust `u8` operation truncates, the model truncates with `% 256`
explicitly).  Rust panics (failed `assert!`, integer-underflow of a `usize`
subtraction followed by an out-of-bounds index) are modelled as `none` /
`RunResult.panic`.  The one genuine loop of `count_linebreaks` (a Rust
`while` that does not always advance its index) is modelled with an explicit
fuel parameter; `RunResult.diverge` records that the fuel ran out, and
divergence of the real loop is expressed as "for every fuel the result is
`diverge`".
-/

/-- Outcome of running a Rust function that may panic or loop forever.
`ok v` is a normal return, `panic` a Rust panic (failed assertion, overflow
or out-of-bounds index), `diverge` exhaustion of the fuel bounding a loop. -/
inductive RunResult (α : Type) where
  | ok (val : α)
  | panic
  | diverge
  deriving DecidableEq, Repr

/-- Embedding of `mask_utf8_byte::<N>` (src/lib.rs:69-77): extract the `N`
most significant bits of the byte `N-1` positions before `index`.
The source asserts `(2..4).contains(&N)` — note the half-open range, which
rejects `N = 4` — modelled as the outer `Option` (`none` = assert panic).
The inner `Option` is the function's own return value: `index.checked_sub`
composed with `bytes.get`, mapped through the mask.  The mask
`((2 << N) - 1) << (u8::BITS - N)` is computed in `u8`, hence the `% 256`. -/
def mask_utf8_byte (N : Nat) (bytes : List Nat) (index : Nat) : Option (Option Nat) :=
  if 2 ≤ N ∧ N < 4 then
    some ((if N - 1 ≤ index then bytes.get? (index - (N - 1)) else none).map
      (fun b => b &&& ((((2 <<< N) - 1) <<< (8 - N)) % 256)))
  else
    none

/-- Embedding of `compute_utf8_bytes_len` (src/lib.rs:83-117): given a byte
of the form `0b10xxxxxx` at `bytes[index]`, work backwards to find the lead
byte of the UTF-8 sequence ending there and subtract the sequence length
from `index`.  Returns the updated index; `none` models the panic of the
`mask_utf8_byte::<4>` call (whose `assert!` rejects `N = 4`).
Match constants are the source's literals: `0b110_00000 = 0xC0`,
`0b1110_000 = 0x70` (seven bits, as written in the source),
`0b11110_000 = 0xF0`. -/
def compute_utf8_bytes_len (bytes : List Nat) (index : Nat) : Option Nat :=
  match mask_utf8_byte 2 bytes index with
  | none => none
  | some r2 =>
    if r2 = some 0xC0 then
      some (index - 1)
    else if r2 = some 0x80 ∨ r2 = some 0xA0 then
      match mask_utf8_byte 3 bytes index with
      | none => none
      | some r3 =>
        if r3 = some 0x70 then
          some (index - 2)
        else if r3 = some 0x80 ∨ r3 = some 0x90 ∨ r3 = some 0xA0 ∨ r3 = some 0xB0 then
          match mask_utf8_byte 4 bytes index with
          | none => none
          | some r4 =>
            if r4 = some 0xF0 then some (index - 3) else some index
        else
          some index
    else
      some index

/-- Result of the backward scan loop of `compute_location`:
either the scan reached buffer position 0 (`atStart`, carrying the column),
or it stopped on a `\n`/`\r` byte (`atBreak`, carrying that byte's index and
the column). -/
inductive ScanResult where
  | atStart (col : Nat)
  | atBreak (index : Nat) (col : Nat)
  deriving DecidableEq, Repr

/-- Embedding of the backward `loop` of `compute_location`
(src/lib.rs:49-62).  Each iteration first executes `index -= 1` (a `usize`
underflow / out-of-bounds panic when `index = 0`, modelled as `none`), then
matches `bytes[index]`: a `\n`/`\r` breaks out of the loop; a continuation
byte `0x80..=0xBF` runs `compute_utf8_bytes_len`; anything else falls
through.  Then `inline_offset += 1` and the loop returns `(0, inline_offset)`
if `index` reached 0.  The loop's index strictly decreases, so the recursion
is bounded by `fuel`; callers pass `fuel = index`, which always suffices
(`scan_back_fuel_ge` below), so the fuel-exhaustion `none` is unreachable. -/
def scan_back (bytes : List Nat) (fuel index col : Nat) : Option ScanResult :=
  if index = 0 then
    none
  else
    let i := index - 1
    match bytes.get? i with
    | none => none
    | some b =>
      if b = 10 ∨ b = 13 then
        some (ScanResult.atBreak i col)
      else
        match (if 0x80 ≤ b ∧ b ≤ 0xBF then compute_utf8_bytes_len bytes i else some i) with
        | none => none
        | some j =>
          if j = 0 then
            some (ScanResult.atStart (col + 1))
          else
            match fuel with
            | 0 => none
            | f + 1 => scan_back bytes f j (col + 1)

/-- Embedding of the `while` loop of `count_linebreaks` (src/lib.rs:121-135).
The source increments `index` only in the `b'\r'` arm; the `b'\n'` and
wildcard arms leave `index` unchanged, so the loop body is re-entered with
the same index.  `fuel` bounds the number of iterations; `none` means the
loop did not finish within `fuel` iterations. -/
def count_linebreaks_loop (bytes : List Nat) (index count fuel : Nat) : Option Nat :=
  match fuel with
  | 0 => none
  | fuel + 1 =>
    if index < bytes.length then
      let b := bytes.getD index 0
      if b = 13 then
        count_linebreaks_loop bytes
          (index + match bytes.get? (index + 1) with | some 10 => 2 | _ => 1)
          (count + 1) fuel
      else if b = 10 then
        count_linebreaks_loop bytes index (count + 1) fuel
      else
        count_linebreaks_loop bytes index count fuel
    else
      some count

/-- Embedding of `count_linebreaks` (src/lib.rs:120-137): run the loop from
`index = 0`, `count = 0`. -/
def count_linebreaks (bytes : List Nat) (fuel : Nat) : Option Nat :=
  count_linebreaks_loop bytes 0 0 fuel

/-- Embedding of `compute_location` (src/lib.rs:44-66).
`assert!(bytes.len() >= offset)` is the first `panic` case; then the
backward scan runs (its `none` is a panic: either the `index -= 1`
underflow at position 0 or the assert inside `mask_utf8_byte::<4>`); on a
break the line number is `count_linebreaks(&bytes[0..=index])`, whose
possible non-termination surfaces as `diverge`. -/
def compute_location (bytes : List Nat) (offset fuel : Nat) : RunResult (Nat × Nat) :=
  if bytes.length < offset then
    RunResult.panic
  else
    match scan_back bytes offset offset 0 with
    | none => RunResult.panic
    | some (ScanResult.atStart col) => RunResult.ok (0, col)
    | some (ScanResult.atBreak index col) =>
      match count_linebreaks (bytes.take (index + 1)) fuel with
      | none => RunResult.diverge
      | some line => RunResult.ok (line, col)

/-- Embedding of `get_lines_and_columns` (src/lib.rs:19-21): delegates to
`compute_location` on the string's bytes. -/
def get_lines_and_columns (source : List Nat) (byte_offset fuel : Nat) :
    RunResult (Nat × Nat) :=
  compute_location source byte_offset fuel

/-! ## Cursor (src/cursor.rs)

The Rust `Cursor` holds three raw pointers `start ≤ cursor ≤ end` into a
byte slice; it is modelled as the underlying byte list together with the
current offset (`pos = cursor - start`; `bytes.length = end - start`).
Methods taking `&mut self` become state-passing functions returning the new
cursor; methods taking `&self` return the value only. -/

/-- Embedding of `Cursor` (src/cursor.rs:49-61). -/
structure Cursor where
  bytes : List Nat
  pos : Nat
  deriving DecidableEq, Repr

/-- Embedding of the `Error` enum (src/cursor.rs:66-105). -/
inductive Error where
  | EncounteredContinuationByte
  | Missing2ndOf2
  | Invalid2ndOf2
  | Missing2ndOf3
  | Invalid2ndOf3
  | Missing3rdOf3
  | Invalid3rdOf3
  | Missing2ndOf4
  | Invalid2ndOf4
  | Missing3rdOf4
  | Invalid3rdOf4
  | Missing4thOf4
  | Invalid4thOf4
  deriving DecidableEq, Repr

namespace Cursor

/-- Embedding of `Cursor::new` (src/cursor.rs:184-191). -/
def new (slice : List Nat) : Cursor :=
  { bytes := slice, pos := 0 }

/-- Embedding of `bytes_consumed` (src/cursor.rs:195-197):
`cursor - start`. -/
def bytes_consumed (c : Cursor) : Nat :=
  c.pos

/-- Embedding of `bytes_remaining` (src/cursor.rs:270-272):
`(end as usize).saturating_sub(cursor as usize)`; `Nat` subtraction is
already saturating. -/
def bytes_remaining (c : Cursor) : Nat :=
  c.bytes.length - c.pos

/-- Embedding of `has_next` (src/cursor.rs:276-278): `cursor < end`. -/
def has_next (c : Cursor) : Bool :=
  c.pos < c.bytes.length

/-- Embedding of `peek_unchecked` (src/cursor.rs:286-288): dereference the
cursor pointer.  The precondition (a next byte exists) is the caller's;
out of bounds the model returns the arbitrary byte 0. -/
def peek_unchecked (c : Cursor) : Nat :=
  c.bytes.getD c.pos 0

/-- Embedding of `advance_unchecked` (src/cursor.rs:304-308):
`cursor = cursor.add(1)`. -/
def advance_unchecked (c : Cursor) : Cursor :=
  { c with pos := c.pos + 1 }

/-- Embedding of `advance_n_unchecked` (src/cursor.rs:312-316). -/
def advance_n_unchecked (c : Cursor) (n : Nat) : Cursor :=
  { c with pos := c.pos + n }

/-- Embedding of `peek` (src/cursor.rs:248-254). -/
def peek (c : Cursor) : Option Nat :=
  if c.has_next then some c.peek_unchecked else none

/-- Embedding of `peek_n` (src/cursor.rs:258-266): `cursor.add(n) < end`. -/
def peek_n (c : Cursor) (n : Nat) : Option Nat :=
  if c.pos + n < c.bytes.length then some (c.bytes.getD (c.pos + n) 0) else none

/-- Embedding of `advance` (src/cursor.rs:292-296): advance one byte,
saturating at the end. -/
def advance (c : Cursor) : Cursor :=
  if c.has_next then c.advance_unchecked else c

/-- Embedding of `next` (src/cursor.rs:222-230): peek then advance. -/
def next (c : Cursor) : Option Nat × Cursor :=
  if c.has_next then (some c.peek_unchecked, c.advance_unchecked) else (none, c)

/-- Embedding of `next_lfn` (src/cursor.rs:201-218): next byte with line
terminators normalized — CR (13), possibly followed by LF (10), is consumed
(one or two bytes) and reported as LF; everything else is returned
unchanged after a one-byte advance; at the end, `none` without advancing. -/
def next_lfn (c : Cursor) : Option Nat × Cursor :=
  match c.peek with
  | none => (none, c)
  | some 13 =>
    let c1 := c.advance_unchecked
    let c2 := if c1.peek = some 10 then { c1 with pos := c1.pos + 1 } else c1
    (some 10, c2)
  | some x => (some x, c.advance_unchecked)

/-- Embedding of Rust's `u8::is_ascii_whitespace` (used at
src/cursor.rs:168): space, horizontal tab, line feed, form feed and
carriage return — and nothing else. -/
def is_ascii_whitespace (b : Nat) : Bool :=
  b = 32 || b = 9 || b = 10 || b = 12 || b = 13

/-- Embedding of `skip_ascii_whitespace` (src/cursor.rs:164-174): loop on
`peek`; stop on `none` or a non-whitespace byte, otherwise
`advance_unchecked`. -/
def skip_ascii_whitespace (c : Cursor) : Cursor :=
  match hx : c.peek with
  | none => c
  | some x =>
    if is_ascii_whitespace x then skip_ascii_whitespace c.advance_unchecked
    else c
termination_by c.bytes.length - c.pos
decreasing_by
  have hlt : c.pos < c.bytes.length := by
    unfold Cursor.peek Cursor.has_next at hx
    by_contra hc
    simp [hc] at hx
  simp [Cursor.advance_unchecked]
  omega

end Cursor

/-- Embedding of the `UTF8_CHAR_WIDTH` table (src/cursor.rs:372-390),
transcribed entry for entry; indexed with `List.getD b 0`. -/
def UTF8_CHAR_WIDTH : List Nat := [
  1, 1, 1, 1, 1, 1, 1, 1, 1, 1, 1, 1, 1, 1, 1, 1,
  1, 1, 1, 1, 1, 1, 1, 1, 1, 1, 1, 1, 1, 1, 1, 1,
  1, 1, 1, 1, 1, 1, 1, 1, 1, 1, 1, 1, 1, 1, 1, 1,
  1, 1, 1, 1, 1, 1, 1, 1, 1, 1, 1, 1, 1, 1, 1, 1,
  1, 1, 1, 1, 1, 1, 1, 1, 1, 1, 1, 1, 1, 1, 1, 1,
  1, 1, 1, 1, 1, 1, 1, 1, 1, 1, 1, 1, 1, 1, 1, 1,
  1, 1, 1, 1, 1, 1, 1, 1, 1, 1, 1, 1, 1, 1, 1, 1,
  1, 1, 1, 1, 1, 1, 1, 1, 1, 1, 1, 1, 1, 1, 1, 1,
  0, 0, 0, 0, 0, 0, 0, 0, 0, 0, 0, 0, 0, 0, 0, 0,
  0, 0, 0, 0, 0, 0, 0, 0, 0, 0, 0, 0, 0, 0, 0, 0,
  0, 0, 0, 0, 0, 0, 0, 0, 0, 0, 0, 0, 0, 0, 0, 0,
  0, 0, 0, 0, 0, 0, 0, 0, 0, 0, 0, 0, 0, 0, 0, 0,
  0, 0, 2, 2, 2, 2, 2, 2, 2, 2, 2, 2, 2, 2, 2, 2,
  2, 2, 2, 2, 2, 2, 2, 2, 2, 2, 2, 2, 2, 2, 2, 2,
  3, 3, 3, 3, 3, 3, 3, 3, 3, 3, 3, 3, 3, 3, 3, 3,
  4, 4, 4, 4, 4, 0, 0, 0, 0, 0, 0, 0, 0, 0, 0, 0]

namespace Cursor

/-- Embedding of `advance_char` (src/cursor.rs:328-369): read the first
byte with `next`, classify it through `UTF8_CHAR_WIDTH`, then for widths
2-4 read each continuation byte with `next_lfn` (the source's `next!`
macro), failing with `Missing...` when the input ends and `Invalid...`
when the byte's top two bits are not `10`.  Width 1 applies CRLF folding
when the byte was CR.  The `_ + 5` arm is the source's
`unreachable_unchecked` (the table holds no value above 4). -/
def advance_char (c : Cursor) : Except Error Unit × Cursor :=
  match c.next with
  | (none, c1) => (Except.ok (), c1)
  | (some first_byte, c1) =>
    match UTF8_CHAR_WIDTH.getD first_byte 0 with
    | 0 => (Except.error Error.EncounteredContinuationByte, c1)
    | 1 =>
      if first_byte = 13 ∧ c1.peek = some 10 then (Except.ok (), c1.advance_unchecked)
      else (Except.ok (), c1)
    | 2 =>
      match c1.next_lfn with
      | (none, c2) => (Except.error Error.Missing2ndOf2, c2)
      | (some x, c2) =>
        if x &&& 0xC0 ≠ 0x80 then (Except.error Error.Invalid2ndOf2, c2)
        else (Except.ok (), c2)
    | 3 =>
      match c1.next_lfn with
      | (none, c2) => (Except.error Error.Missing2ndOf3, c2)
      | (some x, c2) =>
        if x &&& 0xC0 ≠ 0x80 then (Except.error Error.Invalid2ndOf3, c2)
        else
          match c2.next_lfn with
          | (none, c3) => (Except.error Error.Missing3rdOf3, c3)
          | (some y, c3) =>
            if y &&& 0xC0 ≠ 0x80 then (Except.error Error.Invalid3rdOf3, c3)
            else (Except.ok (), c3)
    | 4 =>
      match c1.next_lfn with
      | (none, c2) => (Except.error Error.Missing2ndOf4, c2)
      | (some x, c2) =>
        if x &&& 0xC0 ≠ 0x80 then (Except.error Error.Invalid2ndOf4, c2)
        else
          match c2.next_lfn with
          | (none, c3) => (Except.error Error.Missing3rdOf4, c3)
          | (some y, c3) =>
            if y &&& 0xC0 ≠ 0x80 then (Except.error Error.Invalid3rdOf4, c3)
            else
              match c3.next_lfn with
              | (none, c4) => (Except.error Error.Missing4thOf4, c4)
              | (some z, c4) =>
                if z &&& 0xC0 ≠ 0x80 then (Except.error Error.Invalid4thOf4, c4)
                else (Except.ok (), c4)
    | _ + 5 => (Except.ok (), c1)

/-! ### Fixed-width numeric reads (the `impl_read_n!` macro, src/cursor.rs:5-45)

`$t::from_le(ptr.read_unaligned())` yields the integer whose little-endian
byte string is the `size_of::<$t>()` bytes at the cursor, and `from_be` the
big-endian reading of the same bytes; both are modelled as decoding the
byte list.  The `$le`/`$be` readers and the `$nbe` "consuming" reader all
take `&self` — they cannot move the cursor, so the model returns no cursor
(the state is the argument, unchanged).  Only `$nle` takes `&mut self` and
advances by `size_of::<$t>()` via `advance_n_unchecked` when the read
succeeded. -/

/-- Little-endian value of a byte list (first byte least significant). -/
def le_decode : List Nat → Nat
  | [] => 0
  | b :: rest => b % 256 + 256 * le_decode rest

/-- Big-endian value of a byte list (first byte most significant). -/
def be_decode (bytes : List Nat) : Nat :=
  bytes.foldl (fun acc b => acc * 256 + b % 256) 0

/-- Embedding of the macro's `$le` method (src/cursor.rs:9-15) at byte
width `n`: `none` when fewer than `n` bytes remain, otherwise the
little-endian value of the `n` bytes at the cursor.  Takes `&self`. -/
def read_le (c : Cursor) (n : Nat) : Option Nat :=
  if c.bytes_remaining < n then none
  else some (le_decode ((c.bytes.drop c.pos).take n))

/-- Embedding of the macro's `$be` method (src/cursor.rs:18-24) at byte
width `n`.  Takes `&self`. -/
def read_be (c : Cursor) (n : Nat) : Option Nat :=
  if c.bytes_remaining < n then none
  else some (be_decode ((c.bytes.drop c.pos).take n))

/-- Embedding of the macro's `$nle` method (src/cursor.rs:27-33) at byte
width `n`: `self.$le().inspect(|_| advance_n_unchecked(size_of::<$t>()))`
— the cursor advances by `n` exactly when the read succeeded. -/
def next_le (c : Cursor) (n : Nat) : Option Nat × Cursor :=
  match read_le c n with
  | none => (none, c)
  | some v => (some v, c.advance_n_unchecked n)

/-- Embedding of the macro's `$nbe` method (src/cursor.rs:36-42) at byte
width `n`: its body is a verbatim copy of `$be` and its receiver is
`&self`, so the cursor is returned unchanged in all cases. -/
def next_be (c : Cursor) (n : Nat) : Option Nat × Cursor :=
  ((if c.bytes_remaining < n then none
    else some (be_decode ((c.bytes.drop c.pos).take n))), c)

/-- `read_u16_le` (src/cursor.rs:107). -/
def read_u16_le (c : Cursor) : Option Nat := read_le c 2
/-- `read_u16_be` (src/cursor.rs:107). -/
def read_u16_be (c : Cursor) : Option Nat := read_be c 2
/-- `next_u16_le` (src/cursor.rs:107). -/
def next_u16_le (c : Cursor) : Option Nat × Cursor := next_le c 2
/-- `next_u16_be` (src/cursor.rs:107). -/
def next_u16_be (c : Cursor) : Option Nat × Cursor := next_be c 2
/-- `read_u32_le` (src/cursor.rs:109). -/
def read_u32_le (c : Cursor) : Option Nat := read_le c 4
/-- `read_u32_be` (src/cursor.rs:109). -/
def read_u32_be (c : Cursor) : Option Nat := read_be c 4
/-- `next_u32_le` (src/cursor.rs:109). -/
def next_u32_le (c : Cursor) : Option Nat × Cursor := next_le c 4
/-- `next_u32_be` (src/cursor.rs:109). -/
def next_u32_be (c : Cursor) : Option Nat × Cursor := next_be c 4
/-- `read_u64_le` (src/cursor.rs:111). -/
def read_u64_le (c : Cursor) : Option Nat := read_le c 8
/-- `read_u64_be` (src/cursor.rs:111). -/
def read_u64_be (c : Cursor) : Option Nat := read_be c 8
/-- `next_u64_le` (src/cursor.rs:111). -/
def next_u64_le (c : Cursor) : Option Nat × Cursor := next_le c 8
/-- `next_u64_be` (src/cursor.rs:111). -/
def next_u64_be (c : Cursor) : Option Nat × Cursor := next_be c 8

end Cursor

/-! ## Helper lemmas -/

/-- `peek` succeeding means the position is in bounds and returns the byte
there. -/
theorem Cursor.peek_eq_some (c : Cursor) (b : Nat) (h : c.peek = some b) :
    c.pos < c.bytes.length ∧ c.bytes.getD c.pos 0 = b := by
  unfold Cursor.peek Cursor.has_next Cursor.peek_unchecked at h
  by_cases hlt : c.pos < c.bytes.length
  · simp [hlt] at h
    exact ⟨hlt, by rw [List.getD_eq_getElem _ _ hlt]; exact h⟩
  · simp [hlt] at h

/-- When a byte is available, `next` returns it and advances one byte. -/
theorem Cursor.next_of_peek (c : Cursor) (b : Nat) (h : c.peek = some b) :
    c.next = (some b, c.advance_unchecked) := by
  obtain ⟨hlt, hb⟩ := c.peek_eq_some b h
  rw [List.getD_eq_getElem _ _ hlt] at hb
  unfold Cursor.next Cursor.has_next Cursor.peek_unchecked
  simp [hlt, hb]

/-- Peeking after a one-byte advance is peeking one byte ahead. -/
theorem Cursor.peek_advance_unchecked (c : Cursor) :
    c.advance_unchecked.peek = c.peek_n 1 := by
  unfold Cursor.peek Cursor.peek_n Cursor.has_next Cursor.peek_unchecked
    Cursor.advance_unchecked
  by_cases hlt : c.pos + 1 < c.bytes.length <;> simp [hlt]

/-- Every byte in the continuation range maps to width 0 in the table. -/
theorem utf8_width_cont_eq_zero : ∀ b, 0x80 ≤ b → b ≤ 0xBF →
    UTF8_CHAR_WIDTH.getD b 0 = 0 := by
  decide

/-- The `count_linebreaks` loop never terminates once its index sits on an
in-bounds byte other than CR: the `b'\n'` and wildcard arms of the source's
`match` do not advance `index`, so the loop re-enters the same state (up to
the running count). -/
theorem count_linebreaks_loop_stuck (bytes : List Nat) (index : Nat)
    (h : index < bytes.length) (hb : bytes.getD index 0 ≠ 13) :
    ∀ fuel count, count_linebreaks_loop bytes index count fuel = none := by
  intro fuel
  induction fuel with
  | zero => intro count; rfl
  | succ f ih =>
    intro count
    unfold count_linebreaks_loop
    simp only [h, if_true, hb, if_false]
    split
    · exact ih (count + 1)
    · exact ih count

/-! ## Claims about the location resolver -/

/-- C1: the claim says `compute_location` never panics when
`offset ≤ buffer.length`.  The code disagrees: at `offset = 0` (on any
buffer, empty included) the loop's leading `index -= 1` underflows and the
subsequent `bytes[index]` is out of bounds — a panic; and whenever the
backward column scan lands on the final byte of a valid 4-byte UTF-8
character (here U+1F600), `compute_utf8_bytes_len` calls
`mask_utf8_byte::<4>` whose `assert!((2..4).contains(&N))` rejects `N = 4`
— a panic.  All three offsets below satisfy `offset ≤ length`. -/
theorem compute_location_panics_within_bounds :
    compute_location [0x41] 0 0 = RunResult.panic ∧
    compute_location [] 0 0 = RunResult.panic ∧
    compute_location [0xF0, 0x9F, 0x98, 0x80] 4 0 = RunResult.panic := by
  decide

/-- C2: the claim says the forward line-break count terminates after at most
buffer-length steps.  It does not: for the buffer `"A\nB"` and offset 3 the
backward scan stops at the `\n` (index 1, column 1), and
`count_linebreaks(b"A\n")` loops forever — the `while` loop's `b'\n'` and
wildcard arms never advance `index`, so it stays stuck at the `'A'`.
For every fuel bound the run is still unfinished. -/
theorem compute_location_count_diverges :
    ∀ fuel, compute_location [0x41, 10, 0x42] 3 fuel = RunResult.diverge := by
  intro fuel
  have hstuck := count_linebreaks_loop_stuck [0x41, 10] 0 (by decide) (by decide) fuel 0
  unfold compute_location
  rw [show scan_back [0x41, 10, 0x42] 3 3 0 = some (ScanResult.atBreak 1 1) from by decide]
  simp only [List.length_cons, List.length_nil]
  norm_num
  unfold count_linebreaks
  rw [hstuck]

/-- C3: the spec's concrete vector `"A\r\nB\nC\rD"`.  The claim expects
`(0,0)` at offset 0, `(1,0)` at `'B'` (offset 3), `(2,0)` at `'C'`
(offset 5) and `(3,0)` at `'D'` (offset 7).  The code delivers none of
them: offset 0 panics (the `index -= 1` underflow), and offsets 3, 5 and 7
diverge, because each stops the backward scan on a line-break byte and then
runs `count_linebreaks` on a prefix beginning with `'A'`, where the loop
sticks forever. -/
theorem get_lines_and_columns_spec_vector_fails :
    get_lines_and_columns [65, 13, 10, 66, 10, 67, 13, 68] 0 0 = RunResult.panic ∧
    (∀ fuel, get_lines_and_columns [65, 13, 10, 66, 10, 67, 13, 68] 3 fuel
      = RunResult.diverge) ∧
    (∀ fuel, get_lines_and_columns [65, 13, 10, 66, 10, 67, 13, 68] 5 fuel
      = RunResult.diverge) ∧
    (∀ fuel, get_lines_and_columns [65, 13, 10, 66, 10, 67, 13, 68] 7 fuel
      = RunResult.diverge) := by
  refine ⟨by decide, ?_, ?_, ?_⟩ <;> intro fuel <;>
    unfold get_lines_and_columns compute_location
  · rw [show scan_back [65, 13, 10, 66, 10, 67, 13, 68] 3 3 0
        = some (ScanResult.atBreak 2 0) from by decide]
    simp only [List.length_cons, List.length_nil]
    norm_num
    unfold count_linebreaks
    rw [count_linebreaks_loop_stuck [65, 13, 10] 0 (by decide) (by decide) fuel 0]
  · rw [show scan_back [65, 13, 10, 66, 10, 67, 13, 68] 5 5 0
        = some (ScanResult.atBreak 4 0) from by decide]
    simp only [List.length_cons, List.length_nil]
    norm_num
    unfold count_linebreaks
    rw [count_linebreaks_loop_stuck [65, 13, 10, 66, 10] 0 (by decide) (by decide) fuel 0]
  · rw [show scan_back [65, 13, 10, 66, 10, 67, 13, 68] 7 7 0
        = some (ScanResult.atBreak 6 0) from by decide]
    simp only [List.length_cons, List.length_nil]
    norm_num
    unfold count_linebreaks
    rw [count_linebreaks_loop_stuck [65, 13, 10, 66, 10, 67, 13] 0 (by decide) (by decide) fuel 0]

/-- C4: the claim says the backward scan counts a valid 2-, 3- or 4-byte
sequence as one column unit and jumps past the whole sequence.  For the
valid 3-byte character U+4E2D (`E4 B8 AD`) the scan at the trailing byte
does NOT jump: the source's 3-byte lead pattern `0b1110_000` has seven
bits (value `0x70`), which can never equal a value masked to the top three
bits, so `compute_utf8_bytes_len` leaves the index unchanged and the
character is counted as two column units (the resolver yields column 2,
not 1).  For a valid 4-byte character (U+1F600) the scan panics outright
in `mask_utf8_byte::<4>`. -/
theorem backward_scan_multibyte_miscounts :
    compute_utf8_bytes_len [0xE4, 0xB8, 0xAD] 2 = some 2 ∧
    compute_utf8_bytes_len [0xE4, 0xB8, 0xAD] 2 ≠ some 0 ∧
    compute_location [0xE4, 0xB8, 0xAD] 3 0 = RunResult.ok (0, 2) ∧
    compute_location [0xF0, 0x9F, 0x98, 0x80] 4 1 = RunResult.panic := by
  decide

/-- C5 (counterexample): the claim assigns width 2 to every byte in
`0xC0..=0xDF` and width 4 to every byte in `0xF0..=0xF7`, but the table
(like Rust's standard library) assigns 0 to `0xC0`, `0xC1` (overlong
leads) and to `0xF5..=0xF7` (beyond U+10FFFF). -/
theorem utf8_char_width_claim_false :
    UTF8_CHAR_WIDTH.getD 0xC0 0 = 0 ∧ UTF8_CHAR_WIDTH.getD 0xC0 0 ≠ 2 ∧
    UTF8_CHAR_WIDTH.getD 0xF5 0 = 0 ∧ UTF8_CHAR_WIDTH.getD 0xF5 0 ≠ 4 := by
  decide

/-- C5 (amended): the 256-entry table assigns 1 to `0x00..=0x7F`, 0 to
`0x80..=0xBF`, 0 to `0xC0..=0xC1`, 2 to `0xC2..=0xDF`, 3 to `0xE0..=0xEF`,
4 to `0xF0..=0xF4` and 0 to `0xF5..=0xFF`. -/
theorem utf8_char_width_ranges : ∀ b, b < 256 →
    UTF8_CHAR_WIDTH.getD b 0 =
      (if b ≤ 0x7F then 1
       else if b ≤ 0xBF then 0
       else if b ≤ 0xC1 then 0
       else if b ≤ 0xDF then 2
       else if b ≤ 0xEF then 3
       else if b ≤ 0xF4 then 4
       else 0) := by
  set_option maxRecDepth 4096 in decide

/-- Witness for `utf8_char_width_ranges` at `b = 0xC2`. -/
theorem utf8_char_width_ranges_witness :
    UTF8_CHAR_WIDTH.getD 0xC2 0 =
      (if (0xC2 : Nat) ≤ 0x7F then 1
       else if (0xC2 : Nat) ≤ 0xBF then 0
       else if (0xC2 : Nat) ≤ 0xC1 then 0
       else if (0xC2 : Nat) ≤ 0xDF then 2
       else if (0xC2 : Nat) ≤ 0xEF then 3
       else if (0xC2 : Nat) ≤ 0xF4 then 4
       else 0) :=
  utf8_char_width_ranges 0xC2 (by decide)

/-! ## Claims about the cursor -/

/-- C6: `advance_char`'s error taxonomy.  With a byte `b` available at the
cursor: a continuation byte (`0x80..=0xBF`) in lead position yields
`EncounteredContinuationByte` with the cursor one byte further (the lead
was consumed, no rollback).  For a lead of declared width `L ∈ {2,3,4}`,
the continuation bytes are read in order with the normalized read
`next_lfn`; the first failing position `k` determines the error:
`Missing{k}thOf{L}` when the read finds the input exhausted,
`Invalid{k}thOf{L}` when it returns a byte whose top two bits are not
`10`.  In every case the resulting cursor is exactly the cursor left by
the reads performed — the bytes examined stay consumed. -/
theorem advance_char_error_taxonomy (c : Cursor) (b : Nat) (hp : c.peek = some b) :
    (0x80 ≤ b → b ≤ 0xBF →
      c.advance_char = (Except.error Error.EncounteredContinuationByte,
        c.advance_unchecked)) ∧
    (UTF8_CHAR_WIDTH.getD b 0 = 2 →
      (∀ c2, c.advance_unchecked.next_lfn = (none, c2) →
        c.advance_char = (Except.error Error.Missing2ndOf2, c2)) ∧
      (∀ x c2, c.advance_unchecked.next_lfn = (some x, c2) → x &&& 0xC0 ≠ 0x80 →
        c.advance_char = (Except.error Error.Invalid2ndOf2, c2))) ∧
    (UTF8_CHAR_WIDTH.getD b 0 = 3 →
      (∀ c2, c.advance_unchecked.next_lfn = (none, c2) →
        c.advance_char = (Except.error Error.Missing2ndOf3, c2)) ∧
      (∀ x c2, c.advance_unchecked.next_lfn = (some x, c2) →
        (x &&& 0xC0 ≠ 0x80 →
          c.advance_char = (Except.error Error.Invalid2ndOf3, c2)) ∧
        (x &&& 0xC0 = 0x80 →
          (∀ c3, c2.next_lfn = (none, c3) →
            c.advance_char = (Except.error Error.Missing3rdOf3, c3)) ∧
          (∀ y c3, c2.next_lfn = (some y, c3) → y &&& 0xC0 ≠ 0x80 →
            c.advance_char = (Except.error Error.Invalid3rdOf3, c3))))) ∧
    (UTF8_CHAR_WIDTH.getD b 0 = 4 →
      (∀ c2, c.advance_unchecked.next_lfn = (none, c2) →
        c.advance_char = (Except.error Error.Missing2ndOf4, c2)) ∧
      (∀ x c2, c.advance_unchecked.next_lfn = (some x, c2) →
        (x &&& 0xC0 ≠ 0x80 →
          c.advance_char = (Except.error Error.Invalid2ndOf4, c2)) ∧
        (x &&& 0xC0 = 0x80 →
          (∀ c3, c2.next_lfn = (none, c3) →
            c.advance_char = (Except.error Error.Missing3rdOf4, c3)) ∧
          (∀ y c3, c2.next_lfn = (some y, c3) →
            (y &&& 0xC0 ≠ 0x80 →
              c.advance_char = (Except.error Error.Invalid3rdOf4, c3)) ∧
            (y &&& 0xC0 = 0x80 →
              (∀ c4, c3.next_lfn = (none, c4) →
                c.advance_char = (Except.error Error.Missing4thOf4, c4)) ∧
              (∀ z c4, c3.next_lfn = (some z, c4) → z &&& 0xC0 ≠ 0x80 →
                c.advance_char = (Except.error Error.Invalid4thOf4, c4))))))) := by
  have hnext := Cursor.next_of_peek c b hp
  refine ⟨?_, ?_, ?_, ?_⟩
  · intro h1 h2
    have hw : UTF8_CHAR_WIDTH.getD b 0 = 0 := utf8_width_cont_eq_zero b h1 h2
    unfold Cursor.advance_char
    rw [hnext]; dsimp only; rw [hw]
  · intro hw
    constructor
    · intro c2 h2
      unfold Cursor.advance_char
      rw [hnext]; dsimp only; rw [hw]; dsimp only; rw [h2]
    · intro x c2 h2 hx
      unfold Cursor.advance_char
      rw [hnext]; dsimp only; rw [hw]; dsimp only; rw [h2]
      simp [hx]
  · intro hw
    constructor
    · intro c2 h2
      unfold Cursor.advance_char
      rw [hnext]; dsimp only; rw [hw]; dsimp only; rw [h2]
    · intro x c2 h2
      constructor
      · intro hx
        unfold Cursor.advance_char
        rw [hnext]; dsimp only; rw [hw]; dsimp only; rw [h2]
        simp [hx]
      · intro hx
        constructor
        · intro c3 h3
          unfold Cursor.advance_char
          rw [hnext]; dsimp only; rw [hw]; dsimp only; rw [h2]; dsimp only
          rw [if_neg (by simp [hx])]
          rw [h3]
        · intro y c3 h3 hy
          unfold Cursor.advance_char
          rw [hnext]; dsimp only; rw [hw]; dsimp only; rw [h2]; dsimp only
          rw [if_neg (by simp [hx])]
          rw [h3]
          simp [hy]
  · intro hw
    constructor
    · intro c2 h2
      unfold Cursor.advance_char
      rw [hnext]; dsimp only; rw [hw]; dsimp only; rw [h2]
    · intro x c2 h2
      constructor
      · intro hx
        unfold Cursor.advance_char
        rw [hnext]; dsimp only; rw [hw]; dsimp only; rw [h2]
        simp [hx]
      · intro hx
        constructor
        · intro c3 h3
          unfold Cursor.advance_char
          rw [hnext]; dsimp only; rw [hw]; dsimp only; rw [h2]; dsimp only
          rw [if_neg (by simp [hx])]
          rw [h3]
        · intro y c3 h3
          constructor
          · intro hy
            unfold Cursor.advance_char
            rw [hnext]; dsimp only; rw [hw]; dsimp only; rw [h2]; dsimp only
            rw [if_neg (by simp [hx])]
            rw [h3]
            simp [hy]
          · intro hy
            constructor
            · intro c4 h4
              unfold Cursor.advance_char
              rw [hnext]; dsimp only; rw [hw]; dsimp only; rw [h2]; dsimp only
              rw [if_neg (by simp [hx])]
              rw [h3]; dsimp only
              rw [if_neg (by simp [hy])]
              rw [h4]
            · intro z c4 h4 hz
              unfold Cursor.advance_char
              rw [hnext]; dsimp only; rw [hw]; dsimp only; rw [h2]; dsimp only
              rw [if_neg (by simp [hx])]
              rw [h3]; dsimp only
              rw [if_neg (by simp [hy])]
              rw [h4]
              simp [hz]

/-- Witness for `advance_char_error_taxonomy`: the lead `0xE2` declares a
3-byte sequence and the following byte `0x41` is not a continuation byte,
so the cursor at the start of `[0xE2, 0x41]` fails with `Invalid2ndOf3`,
both bytes consumed. -/
theorem advance_char_error_taxonomy_witness :
    Cursor.advance_char ⟨[0xE2, 0x41], 0⟩ =
      (Except.error Error.Invalid2ndOf3, ⟨[0xE2, 0x41], 2⟩) :=
  (((advance_char_error_taxonomy ⟨[0xE2, 0x41], 0⟩ 0xE2 (by decide)).2.2.1
      (by decide)).2 0x41 ⟨[0xE2, 0x41], 2⟩ (by decide)).1 (by decide)

/-- C7: `next_lfn` normalizes line terminators: at end of input it returns
`none` without moving; at CR followed by LF it consumes both bytes and
returns LF; at a lone CR it consumes one byte and returns LF; at any other
byte (LF included) it consumes one byte and returns that byte unchanged. -/
theorem next_lfn_normalizes (c : Cursor) :
    (c.peek = none → c.next_lfn = (none, c)) ∧
    (c.peek = some 13 → c.peek_n 1 = some 10 →
      c.next_lfn = (some 10, { c with pos := c.pos + 2 })) ∧
    (c.peek = some 13 → c.peek_n 1 ≠ some 10 →
      c.next_lfn = (some 10, c.advance_unchecked)) ∧
    (∀ b, c.peek = some b → b ≠ 13 → c.next_lfn = (some b, c.advance_unchecked)) := by
  refine ⟨?_, ?_, ?_, ?_⟩
  · intro h; unfold Cursor.next_lfn; rw [h]
  · intro h h10
    unfold Cursor.next_lfn
    rw [h]; dsimp only
    rw [Cursor.peek_advance_unchecked, if_pos h10]
    rfl
  · intro h h10
    unfold Cursor.next_lfn
    rw [h]; dsimp only
    rw [Cursor.peek_advance_unchecked, if_neg h10]
  · intro b h hb
    unfold Cursor.next_lfn
    rw [h]
    split
    · next xo heq => exact absurd heq (by simp)
    · next xo heq =>
      rw [Option.some.injEq] at heq
      exact absurd heq hb
    · next xo x hne heq =>
      rw [Option.some.injEq] at heq
      rw [heq]

/-- Witness for `next_lfn_normalizes`: on `[13, 10]` the CRLF pair is
consumed in one normalized read returning LF. -/
theorem next_lfn_normalizes_witness :
    Cursor.next_lfn ⟨[13, 10], 0⟩ = (some 10, ⟨[13, 10], 2⟩) :=
  (next_lfn_normalizes ⟨[13, 10], 0⟩).2.1 (by decide) (by decide)

/-- A normalized read of any byte other than CR consumes exactly one byte
and returns the byte unchanged (shared helper). -/
theorem Cursor.next_lfn_other (c : Cursor) (b : Nat) (h : c.peek = some b)
    (hb : b ≠ 13) : c.next_lfn = (some b, c.advance_unchecked) := by
  unfold Cursor.next_lfn
  rw [h]
  split
  · next xo heq => exact absurd heq (by simp)
  · next xo heq =>
    rw [Option.some.injEq] at heq
    exact absurd heq hb
  · next xo x hne heq =>
    rw [Option.some.injEq] at heq
    rw [heq]

/-- C8 (counterexample): the claim says every continuation-byte read inside
`advance_char`'s multi-byte scan consumes exactly one byte.  On the buffer
`C2 0D 0A` (a 2-byte lead followed by CRLF) the single continuation read is
a normalized read that folds the CRLF pair: it consumes TWO bytes, so after
the lead and one read the cursor sits at position 3, not 2. -/
theorem advance_char_crlf_double_consume :
    Cursor.advance_char ⟨[0xC2, 13, 10], 0⟩ =
      (Except.error Error.Invalid2ndOf2, ⟨[0xC2, 13, 10], 3⟩) ∧
    (Cursor.advance_char ⟨[0xC2, 13, 10], 0⟩).2.pos ≠ 2 :=
  ⟨rfl, by decide⟩

/-- C8 (amended): a continuation-byte read that actually finds a byte in
the continuation range (`≥ 0x80`, hence never CR or LF) consumes exactly
one byte — CR/LF folding cannot trigger; consequently, for a width-2 lead
whose following byte is `≥ 0x80`, `advance_char` leaves the cursor exactly
`2` bytes further (one byte per byte examined), whether the byte was a
valid continuation or not. -/
theorem continuation_read_consumes_one_byte (c : Cursor) :
    (∀ b, c.peek = some b → 0x80 ≤ b →
      c.next_lfn = (some b, c.advance_unchecked)) ∧
    (∀ b b2, c.peek = some b → UTF8_CHAR_WIDTH.getD b 0 = 2 →
      c.peek_n 1 = some b2 → 0x80 ≤ b2 →
      (c.advance_char).2 = { c with pos := c.pos + 2 }) := by
  constructor
  · intro b h hb
    exact c.next_lfn_other b h (by omega)
  · intro b b2 hp hw hp2 hb2
    have hnext := Cursor.next_of_peek c b hp
    have hpeek1 : c.advance_unchecked.peek = some b2 := by
      rw [Cursor.peek_advance_unchecked]; exact hp2
    have hlfn := Cursor.next_lfn_other c.advance_unchecked b2 hpeek1 (by omega)
    unfold Cursor.advance_char
    rw [hnext]; dsimp only; rw [hw]; dsimp only; rw [hlfn]; dsimp only
    split <;> rfl

/-- Witness for `continuation_read_consumes_one_byte`: lead `0xC2`
followed by `0xC5` (`≥ 0x80` but not a valid continuation byte) — the
read consumes one byte and `advance_char` ends at position 2. -/
theorem continuation_read_consumes_one_byte_witness :
    (Cursor.advance_char ⟨[0xC2, 0xC5], 0⟩).2 = ⟨[0xC2, 0xC5], 0 + 2⟩ :=
  (continuation_read_consumes_one_byte ⟨[0xC2, 0xC5], 0⟩).2 0xC2 0xC5
    (by decide) (by decide) (by decide) (by decide)

/-- C9 (counterexample): the claim includes vertical tab (0x0B) in the
whitespace set, but Rust's `u8::is_ascii_whitespace` — and hence
`skip_ascii_whitespace` — does not: on the buffer `[0x0B]` the cursor does
not advance at all. -/
theorem skip_ascii_whitespace_vt_cex :
    Cursor.skip_ascii_whitespace ⟨[11], 0⟩ = ⟨[11], 0⟩ ∧
    (Cursor.skip_ascii_whitespace ⟨[11], 0⟩).pos ≠ 1 := by
  have h : Cursor.skip_ascii_whitespace ⟨[11], 0⟩ = ⟨[11], 0⟩ := by
    unfold Cursor.skip_ascii_whitespace
    rfl
  exact ⟨h, by rw [h]; decide⟩

/-- C10: the consuming little-endian reads advance by the value's byte
width exactly when the read succeeds, while the "consuming" big-endian
reads (`next_u16_be`, `next_u32_be`, `next_u64_be`, macro case `$nbe`)
take `&self`, return exactly what the corresponding `read_*_be` returns,
and never move the cursor. -/
theorem next_be_reads_never_advance (c : Cursor) (n : Nat) :
    Cursor.next_be c n = (Cursor.read_be c n, c) ∧
    (Cursor.next_le c n).2.pos =
      (if c.bytes_remaining < n then c.pos else c.pos + n) ∧
    (Cursor.next_le c n).1 = Cursor.read_le c n ∧
    Cursor.next_u16_be c = (Cursor.read_u16_be c, c) ∧
    Cursor.next_u32_be c = (Cursor.read_u32_be c, c) ∧
    Cursor.next_u64_be c = (Cursor.read_u64_be c, c) := by
  refine ⟨rfl, ?_, ?_, rfl, rfl, rfl⟩ <;>
    by_cases h : c.bytes_remaining < n <;>
      simp [Cursor.next_le, Cursor.read_le, Cursor.advance_n_unchecked, h]

/-- Unfolding equation for `skip_ascii_whitespace` at end of input. -/
theorem Cursor.skip_eq_of_none (c : Cursor) (h : c.peek = none) :
    c.skip_ascii_whitespace = c := by
  unfold Cursor.skip_ascii_whitespace
  split
  · rfl
  · next x hx => rw [h] at hx; exact Option.noConfusion hx

/-- Unfolding equation for `skip_ascii_whitespace` on a whitespace byte. -/
theorem Cursor.skip_eq_of_ws (c : Cursor) (b : Nat) (h : c.peek = some b)
    (hw : Cursor.is_ascii_whitespace b = true) :
    c.skip_ascii_whitespace = c.advance_unchecked.skip_ascii_whitespace := by
  conv_lhs => unfold Cursor.skip_ascii_whitespace
  split
  · next hx => rw [h] at hx; exact Option.noConfusion hx
  · next x hx =>
    rw [h, Option.some.injEq] at hx
    rw [hx] at hw
    rw [if_pos hw]

/-- Unfolding equation for `skip_ascii_whitespace` on a non-whitespace
byte. -/
theorem Cursor.skip_eq_of_not_ws (c : Cursor) (b : Nat) (h : c.peek = some b)
    (hw : Cursor.is_ascii_whitespace b = false) :
    c.skip_ascii_whitespace = c := by
  conv_lhs => unfold Cursor.skip_ascii_whitespace
  split
  · rfl
  · next x hx =>
    rw [h, Option.some.injEq] at hx
    rw [hx] at hw
    rw [if_neg (by simp [hw])]

/-- C9 (amended): `skip_ascii_whitespace` advances exactly while the next
byte is in Rust's `is_ascii_whitespace` set — space, tab, LF, FF, CR (and
NOT vertical tab) — stopping at the first byte outside that set or at the
end of the buffer; it never fails (it is a total function), and reaching
the end (`peek = none` on the result, covered by the last conjunct being
vacuous) is a normal stop. -/
theorem skip_ascii_whitespace_stops_correctly (c : Cursor) :
    (c.skip_ascii_whitespace).bytes = c.bytes ∧
    c.pos ≤ (c.skip_ascii_whitespace).pos ∧
    (∀ j, c.pos ≤ j → j < (c.skip_ascii_whitespace).pos →
      Cursor.is_ascii_whitespace (c.bytes.getD j 0) = true) ∧
    (∀ y, (c.skip_ascii_whitespace).peek = some y →
      Cursor.is_ascii_whitespace y = false) := by
  induction c using Cursor.skip_ascii_whitespace.induct with
  | case1 c h =>
    rw [Cursor.skip_eq_of_none c h]
    refine ⟨rfl, Nat.le_refl _, fun j h1 h2 => absurd h2 (by omega), ?_⟩
    intro y hy
    rw [h] at hy
    exact Option.noConfusion hy
  | case2 c b h hw ih =>
    rw [Cursor.skip_eq_of_ws c b h hw]
    obtain ⟨ih1, ih2, ih3, ih4⟩ := ih
    have hadvb : c.advance_unchecked.bytes = c.bytes := rfl
    have hadvp : c.advance_unchecked.pos = c.pos + 1 := rfl
    obtain ⟨hplt, hpb⟩ := Cursor.peek_eq_some c b h
    refine ⟨by rw [ih1]; exact hadvb, by omega, ?_, ih4⟩
    intro j h1 h2
    rcases Nat.eq_or_lt_of_le h1 with heq | hlt
    · rw [← heq, hpb]
      exact hw
    · have := ih3 j (by omega) h2
      rwa [hadvb] at this
  | case3 c b h hw =>
    rw [Cursor.skip_eq_of_not_ws c b h (by simpa using hw)]
    refine ⟨rfl, Nat.le_refl _, fun j h1 h2 => absurd h2 (by omega), ?_⟩
    intro y hy
    rw [h, Option.some.injEq] at hy
    rw [← hy]
    simpa using hw

/-- Witness for `skip_ascii_whitespace_stops_correctly` on `[32, 65]`
(a space then `'A'`): the skipped byte at index 0 is whitespace. -/
theorem skip_ascii_whitespace_stops_correctly_witness :
    Cursor.is_ascii_whitespace ((⟨[32, 65], 0⟩ : Cursor).bytes.getD 0 0) = true :=
  (skip_ascii_whitespace_stops_correctly ⟨[32, 65], 0⟩).2.2.1 0 (Nat.le_refl 0)
    (by
      rw [Cursor.skip_eq_of_ws ⟨[32, 65], 0⟩ 32 rfl rfl,
        show (⟨[32, 65], 0⟩ : Cursor).advance_unchecked = ⟨[32, 65], 1⟩ from rfl,
        Cursor.skip_eq_of_not_ws ⟨[32, 65], 1⟩ 65 rfl rfl]
      decide)

/-- `compute_utf8_bytes_len` never moves the index forward. -/
theorem compute_utf8_bytes_len_le (bytes : List Nat) (i j : Nat)
    (h : compute_utf8_bytes_len bytes i = some j) : j ≤ i := by
  unfold compute_utf8_bytes_len at h
  repeat' split at h
  all_goals simp_all
  all_goals omega

/-- The fuel bound of `scan_back` is irrelevant as long as it is at least
the starting index: the loop's index strictly decreases, so the fuel
passed by `compute_location` (namely `offset` itself) never runs out, and
the fuel-exhaustion arm of `scan_back` is unreachable. -/
theorem scan_back_fuel_ge (bytes : List Nat) :
    ∀ index f1 f2 col, index ≤ f1 → index ≤ f2 →
      scan_back bytes f1 index col = scan_back bytes f2 index col := by
  intro index
  induction index using Nat.strong_induction_on with
  | _ index ih =>
    intro f1 f2 col h1 h2
    by_cases h0 : index = 0
    · unfold scan_back; simp [h0]
    · cases f1 with
      | zero => omega
      | succ g1 =>
        cases f2 with
        | zero => omega
        | succ g2 =>
          unfold scan_back
          simp only [if_neg h0]
          split
          · rfl
          · next b hb =>
            split
            · rfl
            · next hbreak =>
              split
              · rfl
              · next j hj =>
                split
                · rfl
                · next hj0 =>
                  have hle : j ≤ index - 1 := by
                    split at hj
                    · exact compute_utf8_bytes_len_le bytes (index - 1) j hj
                    · rw [Option.some.injEq] at hj; omega
                  exact ih j (by omega) g1 g2 (col + 1) (by omega) (by omega)
